import Mathlib

/-!
Verification of `PDF_PageGrid.py`.

A shallow embedding of the script's pure logic in Lean 4:

* Python strings are modelled as lists of characters (`PyStr`), because the
  relevant operations (`lower`, `upper`, `strip`, `split`, `int(...)`) are
  character-wise and must evaluate inside the kernel.
* Python integers are modelled as `Int` (or `Nat` where the source only ever
  sees non-negative values: pixel dimensions, margins, spacings, indices);
  Python `//` on non-negative operands is `Nat` division.
* `math.sqrt`, `math.ceil` and the float division in `downscale_if_needed`
  are modelled as exact real/rational arithmetic: `math.ceil (math.sqrt n)`
  becomes `ceilSqrt`, `math.ceil (a / b)` becomes `cdiv`, and
  `int(h * (maxWidth / w))` becomes `h * maxWidth / w` in `Nat` (floor).
* PIL images are modelled by their pixel dimensions only; the poster
  additionally records the list of paste operations performed on it
  (source image and paste offset), which is what the layout claims are about.
* Exceptions are modelled with `Except`; the per-document `try/except` of
  `main` becomes an explicit per-document outcome in `process_pdf_events`.
-/

/-- Python strings, modelled as lists of characters. -/
abbrev PyStr := List Char

/-- Python `str.lower()`. -/
def pyLower (s : PyStr) : PyStr := s.map Char.toLower

/-- Python `str.upper()`. -/
def pyUpper (s : PyStr) : PyStr := s.map Char.toUpper

/-- Python `str.strip()`: drop leading and trailing whitespace. -/
def pyStrip (s : PyStr) : PyStr :=
  ((s.dropWhile Char.isWhitespace).reverse.dropWhile Char.isWhitespace).reverse

/-- Python `str.split(",")`.  `"".split(",") = [""]`. -/
def pySplitComma : PyStr → List PyStr
  | [] => [[]]
  | c :: rest =>
    if c = ',' then [] :: pySplitComma rest
    else
      match pySplitComma rest with
      | [] => [[c]]
      | t :: ts => (c :: t) :: ts

/-- Value of a string of decimal digits. -/
def digitsToNat (ds : PyStr) : Nat :=
  ds.foldl (fun acc c => 10 * acc + (c.toNat - Char.toNat '0')) 0

/-- Python `int(s)` for the common lexical forms: surrounding whitespace, an
optional sign, then a non-empty run of decimal digits; anything else raises
`ValueError`, modelled as `none`.  (Underscore digit separators are not
modelled.) -/
def pyInt? (s : PyStr) : Option Int :=
  match pyStrip s with
  | '-' :: ds =>
      if ds ≠ [] ∧ ds.all Char.isDigit then some (-(digitsToNat ds : Int)) else none
  | '+' :: ds =>
      if ds ≠ [] ∧ ds.all Char.isDigit then some (digitsToNat ds : Int) else none
  | ds =>
      if ds ≠ [] ∧ ds.all Char.isDigit then some (digitsToNat ds : Int) else none

/-- A rendered PDF page: a PIL image, modelled by its pixel dimensions. -/
structure PageImage where
  width : Nat
  height : Nat
  deriving DecidableEq, Repr

/-- Error raised by `compute_grid` (Python: `ValueError` from `int(cols)`). -/
inductive ConfigError where
  | invalidConfig
  deriving DecidableEq, Repr

/-- Ceiling division `math.ceil (a / b)` for natural `a` and positive `b`,
in exact arithmetic. -/
def cdiv (a b : Nat) : Nat := (a + b - 1) / b

/-- Linear search for the least `c ≥ start` with `c * c ≥ n`, with explicit
fuel so that it evaluates by structural recursion. -/
def ceilSqrtFrom (n : Nat) : Nat → Nat → Nat
  | start, 0 => start
  | start, fuel + 1 => if n ≤ start * start then start else ceilSqrtFrom n (start + 1) fuel

/-- Exact-arithmetic model of `math.ceil (math.sqrt n)`: the least `c` with
`c * c ≥ n` (proved in `ceilSqrt_spec`). -/
def ceilSqrt (n : Nat) : Nat := ceilSqrtFrom n 0 n

/-- `compute_grid(n_pages, cols)` from the source: returns `(columns, rows)`.
`cols == "1"` stacks vertically; `cols.lower() == "auto"` picks
`ceil(sqrt n)` columns; otherwise `cols` must parse as an integer, clamped to
at least 1 (`max(1, int(cols))`), else `ValueError` (`invalidConfig`). -/
def compute_grid (n_pages : Nat) (cols : PyStr) : Except ConfigError (Nat × Nat) :=
  if cols = "1".data then .ok (1, n_pages)
  else if pyLower cols = "auto".data then
    let c := ceilSqrt n_pages
    let r := cdiv n_pages c
    .ok (c, r)
  else
    match pyInt? cols with
    | none => .error .invalidConfig
    | some k =>
      let c := (max 1 k).toNat
      let r := cdiv n_pages c
      .ok (c, r)

/-- Error raised by `make_poster` (Python:
`ValueError("No images to compose.")`); the spec calls it `EmptyInput`. -/
inductive ComposeError where
  | emptyInput
  deriving DecidableEq, Repr

/-- The poster image: its dimensions together with the paste operations
performed on it, in order — `(page, off_x, off_y)` for each page. -/
structure Poster where
  width : Nat
  height : Nat
  pastes : List (PageImage × Nat × Nat)
  deriving DecidableEq, Repr

/-- `max(im.width for im in images)` (0 on the empty list; `make_poster`
only evaluates it on non-empty input). -/
def cellWidth (images : List PageImage) : Nat :=
  (images.map PageImage.width).foldl Nat.max 0

/-- `max(im.height for im in images)`. -/
def cellHeight (images : List PageImage) : Nat :=
  (images.map PageImage.height).foldl Nat.max 0

/-- The paste loop of `make_poster`: page at linear index `idx` goes to row
`idx // cols`, column `idx % cols`, centered in its cell by floor division. -/
def posterPastes (images : List PageImage) (cols cell_w cell_h margin spacing : Nat) :
    List (PageImage × Nat × Nat) :=
  images.enum.map fun p =>
    let idx := p.1
    let im := p.2
    let r := idx / cols
    let c := idx % cols
    let x0 := margin + c * (cell_w + spacing)
    let y0 := margin + r * (cell_h + spacing)
    let off_x := x0 + (cell_w - im.width) / 2
    let off_y := y0 + (cell_h - im.height) / 2
    (im, off_x, off_y)

/-- `make_poster(images, cols, rows, margin, spacing, bg)` from the source
(the background colour only fills pixels and is not modelled).  Raises on an
empty page list, otherwise builds the canvas and pastes every page. -/
def make_poster (images : List PageImage) (cols rows margin spacing : Nat) :
    Except ComposeError Poster :=
  if images = [] then .error .emptyInput
  else
    let cell_w := cellWidth images
    let cell_h := cellHeight images
    let grid_w := cols * cell_w + (cols - 1) * spacing
    let grid_h := rows * cell_h + (rows - 1) * spacing
    let total_w := grid_w + 2 * margin
    let total_h := grid_h + 2 * margin
    .ok { width := total_w, height := total_h,
          pastes := posterPastes images cols cell_w cell_h margin spacing }

/-- A PIL image as seen by `downscale_if_needed`: dimensions only. -/
structure Img where
  width : Nat
  height : Nat
  deriving DecidableEq, Repr

/-- `downscale_if_needed(img, max_width)` from the source.  Returns `img`
itself when `max_width <= 0 or img.width <= max_width`; otherwise resizes to
width `max_width` and height `max(1, int(img.height * ratio))`, where the
float product `img.height * (max_width / img.width)` is modelled as the exact
rational and `int(...)` as its floor. -/
def downscale_if_needed (img : Img) (max_width : Int) : Img :=
  if max_width ≤ 0 ∨ (img.width : Int) ≤ max_width then img
  else
    { width := max_width.toNat,
      height := max 1 (img.height * max_width.toNat / img.width) }

/-- Rounding `a / b` to the nearest integer (ties up).  Modelled from the
spec: the specification describes the downscaled height as
`max(1, round(img.height * ratio))`; this is that rounding, for comparison
with what the source computes. -/
def roundNearest (a b : Nat) : Nat := (2 * a + b) / (2 * b)

-- Helper lemmas ------------------------------------------------------------

theorem le_foldl_max (l : List Nat) (a : Nat) :
    a ≤ l.foldl Nat.max a ∧ ∀ x ∈ l, x ≤ l.foldl Nat.max a := by
  induction l generalizing a with
  | nil => simp
  | cons b t ih =>
    obtain ⟨h1, h2⟩ := ih (Nat.max a b)
    refine ⟨le_trans (Nat.le_max_left a b) h1, ?_⟩
    intro x hx
    rcases List.mem_cons.mp hx with rfl | hx
    · exact le_trans (Nat.le_max_right a x) h1
    · exact h2 x hx

theorem width_le_cellWidth (images : List PageImage) (im : PageImage)
    (h : im ∈ images) : im.width ≤ cellWidth images :=
  (le_foldl_max (images.map PageImage.width) 0).2 im.width
    (List.mem_map.mpr ⟨im, h, rfl⟩)

theorem height_le_cellHeight (images : List PageImage) (im : PageImage)
    (h : im ∈ images) : im.height ≤ cellHeight images :=
  (le_foldl_max (images.map PageImage.height) 0).2 im.height
    (List.mem_map.mpr ⟨im, h, rfl⟩)

theorem make_poster_eq (images : List PageImage) (cols rows margin spacing : Nat)
    (hne : images ≠ []) :
    make_poster images cols rows margin spacing =
      .ok { width := cols * cellWidth images + (cols - 1) * spacing + 2 * margin,
            height := rows * cellHeight images + (rows - 1) * spacing + 2 * margin,
            pastes := posterPastes images cols (cellWidth images) (cellHeight images)
              margin spacing } := by
  simp [make_poster, hne]

theorem posterPastes_getElem? (images : List PageImage)
    (cols cell_w cell_h margin spacing idx : Nat) (h : idx < images.length) :
    (posterPastes images cols cell_w cell_h margin spacing)[idx]? =
      some (images[idx],
        margin + (idx % cols) * (cell_w + spacing) + (cell_w - (images[idx]).width) / 2,
        margin + (idx / cols) * (cell_h + spacing) + (cell_h - (images[idx]).height) / 2) := by
  simp [posterPastes, List.getElem?_enum, List.getElem?_eq_getElem h]

theorem cdiv_le_iff (n c m : Nat) (hc : 1 ≤ c) : cdiv n c ≤ m ↔ n ≤ c * m := by
  unfold cdiv
  rw [Nat.div_le_iff_le_mul_add_pred hc]
  omega

theorem le_mul_cdiv (n c : Nat) (hc : 1 ≤ c) : n ≤ c * cdiv n c :=
  (cdiv_le_iff n c (cdiv n c) hc).mp le_rfl

theorem ceilSqrtFrom_spec (n : Nat) (fuel start : Nat)
    (hfuel : n ≤ (start + fuel) * (start + fuel))
    (hbelow : ∀ x, x < start → ¬ n ≤ x * x) :
    n ≤ ceilSqrtFrom n start fuel * ceilSqrtFrom n start fuel ∧
      ∀ m, n ≤ m * m → ceilSqrtFrom n start fuel ≤ m := by
  induction fuel generalizing start with
  | zero =>
    refine ⟨by simpa using hfuel, fun m hm => ?_⟩
    by_contra hlt
    exact hbelow m (by simpa [ceilSqrtFrom] using hlt) hm
  | succ fuel ih =>
    by_cases h : n ≤ start * start
    · refine ⟨by simpa [ceilSqrtFrom, h] using h, fun m hm => ?_⟩
      simp only [ceilSqrtFrom, if_pos h]
      by_contra hlt
      exact hbelow m (by omega) hm
    · have heq : start + 1 + fuel = start + (fuel + 1) := by omega
      have hbelow' : ∀ x, x < start + 1 → ¬ n ≤ x * x := by
        intro x hx
        rcases Nat.lt_succ_iff_lt_or_eq.mp hx with hx' | rfl
        · exact hbelow x hx'
        · exact h
      have hrec := ih (start + 1) (heq ▸ hfuel) hbelow'
      simpa [ceilSqrtFrom, if_neg h] using hrec

theorem ceilSqrt_spec (n : Nat) :
    n ≤ ceilSqrt n * ceilSqrt n ∧ ∀ m, n ≤ m * m → ceilSqrt n ≤ m := by
  have hself : n ≤ n * n := by
    match n with
    | 0 => exact Nat.le_refl 0
    | k + 1 => exact Nat.le_mul_of_pos_left (k + 1) (Nat.succ_pos k)
  exact ceilSqrtFrom_spec n n 0 (by simpa using hself) (fun x hx => by omega)

theorem ceilSqrt_pos (n : Nat) (hn : 1 ≤ n) : 1 ≤ ceilSqrt n := by
  obtain ⟨hsq, _⟩ := ceilSqrt_spec n
  by_contra h
  have : ceilSqrt n = 0 := by omega
  rw [this] at hsq
  omega

-- C1 ------------------------------------------------------------------------

/-- C1: for every non-empty list of pages with positive widths and heights,
every grid shape, margin and spacing, `make_poster` succeeds and the poster
measures `cols*cellW + (cols-1)*spacing + 2*margin` by
`rows*cellH + (rows-1)*spacing + 2*margin`, where `cellW`/`cellH` are the
maximal page width/height. -/
theorem make_poster_canvas_size (images : List PageImage)
    (cols rows margin spacing : Nat) (hne : images ≠ [])
    (hw : ∀ im ∈ images, 0 < im.width) (hh : ∀ im ∈ images, 0 < im.height) :
    ∃ p, make_poster images cols rows margin spacing = .ok p ∧
      p.width = cols * cellWidth images + (cols - 1) * spacing + 2 * margin ∧
      p.height = rows * cellHeight images + (rows - 1) * spacing + 2 * margin :=
  ⟨_, make_poster_eq images cols rows margin spacing hne, rfl, rfl⟩

/-- Witness for C1, at the spec's own example: 3 pages sized 100×200,
150×150, 100×180 with margin 10, spacing 5 on a 2×2 grid give a
325×425 poster. -/
theorem make_poster_canvas_size_witness :
    ∃ p, make_poster [⟨100, 200⟩, ⟨150, 150⟩, ⟨100, 180⟩] 2 2 10 5 = .ok p ∧
      p.width = 325 ∧ p.height = 425 := by
  obtain ⟨p, hp, hw, hh⟩ :=
    make_poster_canvas_size [⟨100, 200⟩, ⟨150, 150⟩, ⟨100, 180⟩] 2 2 10 5
      (by decide) (by decide) (by decide)
  refine ⟨p, hp, ?_, ?_⟩
  · rw [hw]; decide
  · rw [hh]; decide

-- C2 ------------------------------------------------------------------------

/-- C2: for every positive `n`, `compute_grid n "auto"` returns `(c, r)`
where `c` is the least integer whose square is at least `n`
(`c = ceil (sqrt n)`), `r = ceil (n / c)` (characterised as the least `r`
with `c * r ≥ n`), and in particular `c * r ≥ n`. -/
theorem compute_grid_auto (n : Nat) (hn : 1 ≤ n) :
    ∃ c r, compute_grid n "auto".data = .ok (c, r) ∧
      n ≤ c * c ∧ (∀ m, n ≤ m * m → c ≤ m) ∧
      n ≤ c * r ∧ (∀ m, n ≤ c * m → r ≤ m) := by
  have h1 : ¬ (("auto".data : PyStr) = "1".data) := by decide
  have h2 : pyLower "auto".data = "auto".data := by decide
  have hg : compute_grid n "auto".data = .ok (ceilSqrt n, cdiv n (ceilSqrt n)) := by
    simp [compute_grid, h1, h2]
  have hc := ceilSqrt_pos n hn
  obtain ⟨hsq, hmin⟩ := ceilSqrt_spec n
  exact ⟨ceilSqrt n, cdiv n (ceilSqrt n), hg, hsq, hmin,
    le_mul_cdiv n (ceilSqrt n) hc,
    fun m hm => (cdiv_le_iff n (ceilSqrt n) m hc).mpr hm⟩

/-- Witness for C2 at `n = 7`: the auto grid is 3×3. -/
theorem compute_grid_auto_witness :
    (∃ c r, compute_grid 7 "auto".data = .ok (c, r) ∧
      7 ≤ c * c ∧ (∀ m, 7 ≤ m * m → c ≤ m) ∧
      7 ≤ c * r ∧ (∀ m, 7 ≤ c * m → r ≤ m)) ∧
    (compute_grid 7 "auto".data).toOption = some (3, 3) :=
  ⟨compute_grid_auto 7 (by decide), by decide⟩

-- C6 ------------------------------------------------------------------------

/-- C6: on the empty page sequence, for any grid shape and layout
parameters, `make_poster` fails with the `EmptyInput` error (Python raises
`ValueError("No images to compose.")`) rather than returning a poster. -/
theorem make_poster_empty_input (cols rows margin spacing : Nat) :
    make_poster [] cols rows margin spacing = .error .emptyInput := rfl

-- C7 ------------------------------------------------------------------------

/-- C7: `downscale_if_needed` is the identity whenever `max_width ≤ 0` or
`img.width ≤ max_width`: it returns the very same image, no resampling. -/
theorem downscale_if_needed_identity (img : Img) (max_width : Int)
    (h : max_width ≤ 0 ∨ (img.width : Int) ≤ max_width) :
    downscale_if_needed img max_width = img := by
  simp only [downscale_if_needed, if_pos h]

/-- Witness for C7: `resize(img, 0) = img` on a 5×7 image, and identity on a
3×9 image already narrower than the limit 4. -/
theorem downscale_if_needed_identity_witness :
    downscale_if_needed ⟨5, 7⟩ 0 = ⟨5, 7⟩ ∧ downscale_if_needed ⟨3, 9⟩ 4 = ⟨3, 9⟩ :=
  ⟨downscale_if_needed_identity ⟨5, 7⟩ 0 (by decide),
   downscale_if_needed_identity ⟨3, 9⟩ 4 (by decide)⟩

-- C3 ------------------------------------------------------------------------

/-- C3 as stated is false: the source truncates the new height
(`int(img.height * ratio)`, floor) while the claim says round-to-nearest.
On a 2×3 image with `max_width = 1` the exact product is `1.5` (a value on
which the float computation is exact): the code truncates it to height 1,
rounding to nearest would give 2. -/
theorem downscale_round_counterexample :
    (downscale_if_needed ⟨2, 3⟩ 1).height ≠ max 1 (roundNearest (3 * 1) 2) := by
  decide

/-- C3 amended: for `0 < max_width < img.width`, `downscale_if_needed`
returns an image of width `max_width` and height
`max 1 ⌊img.height * max_width / img.width⌋` (floor, not round-to-nearest),
preserving aspect ratio within rounding. -/
theorem downscale_if_needed_floor (img : Img) (max_width : Int)
    (h1 : 0 < max_width) (h2 : max_width < (img.width : Int)) :
    downscale_if_needed img max_width =
      { width := max_width.toNat,
        height := max 1 (img.height * max_width.toNat / img.width) } := by
  have h : ¬ (max_width ≤ 0 ∨ (img.width : Int) ≤ max_width) := by omega
  simp only [downscale_if_needed, if_neg h]

/-- Witness for the amended C3: a 4×10 image limited to width 2 becomes
2×5. -/
theorem downscale_if_needed_floor_witness :
    downscale_if_needed ⟨4, 10⟩ 2 = ⟨2, 5⟩ := by
  have h := downscale_if_needed_floor ⟨4, 10⟩ 2 (by decide) (by decide)
  rw [h]; decide

-- C8 ------------------------------------------------------------------------

/-- C8: for every non-empty page list and a grid with `cols ≥ 1`, the page at
0-based linear index `idx` is pasted at row `idx / cols`, column `idx % cols`,
at offset `margin + col*(cellW+spacing) + (cellW - w)/2` (and the analogous
vertical offset); consequently the left/right (resp. top/bottom) padding
inside the cell — `(cellW - w)/2` on the left, the rest of `cellW - w` on the
right — differ by at most one pixel. -/
theorem make_poster_placement (images : List PageImage)
    (cols rows margin spacing idx : Nat)
    (hcols : 1 ≤ cols) (hidx : idx < images.length) :
    ∃ p, make_poster images cols rows margin spacing = .ok p ∧
      p.pastes[idx]? = some (images[idx],
        margin + (idx % cols) * (cellWidth images + spacing)
          + (cellWidth images - (images[idx]).width) / 2,
        margin + (idx / cols) * (cellHeight images + spacing)
          + (cellHeight images - (images[idx]).height) / 2) ∧
      (cellWidth images - (images[idx]).width) / 2 ≤
        (cellWidth images - (images[idx]).width)
          - (cellWidth images - (images[idx]).width) / 2 ∧
      ((cellWidth images - (images[idx]).width)
          - (cellWidth images - (images[idx]).width) / 2)
        - (cellWidth images - (images[idx]).width) / 2 ≤ 1 ∧
      (cellHeight images - (images[idx]).height) / 2 ≤
        (cellHeight images - (images[idx]).height)
          - (cellHeight images - (images[idx]).height) / 2 ∧
      ((cellHeight images - (images[idx]).height)
          - (cellHeight images - (images[idx]).height) / 2)
        - (cellHeight images - (images[idx]).height) / 2 ≤ 1 := by
  have hne : images ≠ [] := by
    intro h
    rw [h] at hidx
    simp at hidx
  refine ⟨_, make_poster_eq images cols rows margin spacing hne, ?_, ?_, ?_, ?_, ?_⟩
  · exact posterPastes_getElem? images cols (cellWidth images) (cellHeight images)
      margin spacing idx hidx
  all_goals omega

/-- Witness for C8: on pages 3×4, 5×6, 2×2 in a 2-column grid with margin
and spacing 1, the third page (index 2) lands at row 1, column 0, offset
(2, 10). -/
theorem make_poster_placement_witness :
    ∃ p, make_poster [⟨3, 4⟩, ⟨5, 6⟩, ⟨2, 2⟩] 2 2 1 1 = .ok p ∧
      p.pastes[2]? = some (⟨2, 2⟩, 2, 10) := by
  obtain ⟨p, hp, hpaste, -, -, -, -⟩ :=
    make_poster_placement [⟨3, 4⟩, ⟨5, 6⟩, ⟨2, 2⟩] 2 2 1 1 2 (by decide) (by decide)
  refine ⟨p, hp, ?_⟩
  rw [hpaste]
  decide

-- C9 ------------------------------------------------------------------------

theorem paste_bound (cells cdim sp margin pos e : Nat)
    (hpos : pos < cells) (he : e ≤ cdim) :
    margin + pos * (cdim + sp) + (cdim - e) / 2 + e ≤
      cells * cdim + (cells - 1) * sp + 2 * margin := by
  obtain ⟨k, rfl⟩ : ∃ k, cells = k + 1 := ⟨cells - 1, by omega⟩
  have hpos' : pos ≤ k := by omega
  have hmul : pos * (cdim + sp) ≤ k * (cdim + sp) := Nat.mul_le_mul_right _ hpos'
  have hk1 : k * (cdim + sp) = k * cdim + k * sp := Nat.mul_add k cdim sp
  have hk2 : (k + 1) * cdim = k * cdim + cdim := Nat.succ_mul k cdim
  simp only [Nat.add_sub_cancel]
  omega

/-- C9: with `cols ≥ 1`, non-negative margin and spacing, and enough grid
cells (`length ≤ cols * rows`), every pasted page rectangle lies entirely
inside the poster canvas: offsets are naturals (hence `≥ 0`) and
`off + page extent` is bounded by the poster dimension — no paste is clipped
or out of bounds. -/
theorem make_poster_pastes_in_bounds (images : List PageImage)
    (cols rows margin spacing idx : Nat)
    (hcols : 1 ≤ cols) (hcover : images.length ≤ cols * rows)
    (hidx : idx < images.length) :
    ∃ p, make_poster images cols rows margin spacing = .ok p ∧
      ∀ im x y, p.pastes[idx]? = some (im, x, y) →
        x + im.width ≤ p.width ∧ y + im.height ≤ p.height := by
  have hne : images ≠ [] := by
    intro h
    rw [h] at hidx
    simp at hidx
  refine ⟨_, make_poster_eq images cols rows margin spacing hne, ?_⟩
  intro im x y hxy
  have hT := posterPastes_getElem? images cols (cellWidth images) (cellHeight images)
    margin spacing idx hidx
  dsimp only at hxy ⊢
  rw [hT] at hxy
  simp only [Option.some.injEq, Prod.mk.injEq] at hxy
  obtain ⟨rfl, rfl, rfl⟩ := hxy
  have hmem : images[idx] ∈ images := List.getElem_mem hidx
  have hw : (images[idx]).width ≤ cellWidth images :=
    width_le_cellWidth images _ hmem
  have hh : (images[idx]).height ≤ cellHeight images :=
    height_le_cellHeight images _ hmem
  have hcol : idx % cols < cols := Nat.mod_lt idx (by omega)
  have hrow : idx / cols < rows := by
    have h1 : idx < rows * cols := by
      calc idx < images.length := hidx
        _ ≤ cols * rows := hcover
        _ = rows * cols := Nat.mul_comm cols rows
    exact (Nat.div_lt_iff_lt_mul (by omega)).mpr h1
  exact ⟨paste_bound cols (cellWidth images) spacing margin (idx % cols)
      (images[idx]).width hcol hw,
    paste_bound rows (cellHeight images) spacing margin (idx / cols)
      (images[idx]).height hrow hh⟩

/-- Witness for C9: the same 3-page 2×2 grid, at index 1 (page 5×6). -/
theorem make_poster_pastes_in_bounds_witness :
    ∃ p, make_poster [⟨3, 4⟩, ⟨5, 6⟩, ⟨2, 2⟩] 2 2 1 1 = .ok p ∧
      ∀ im x y, p.pastes[1]? = some (im, x, y) →
        x + im.width ≤ p.width ∧ y + im.height ≤ p.height :=
  make_poster_pastes_in_bounds [⟨3, 4⟩, ⟨5, 6⟩, ⟨2, 2⟩] 2 2 1 1 1
    (by decide) (by decide) (by decide)

-- resolve_formats ------------------------------------------------------------

/-- The argparse fields consumed by `resolve_formats`: `--formats` (comma
separated, empty by default), `--both`, and the legacy single `--format`
(restricted by argparse to PNG, JPG or JPEG). -/
structure Args where
  formats : PyStr
  both : Bool
  format : PyStr
  deriving Repr

/-- Membership test of the loop body, `f not in ("PNG", "JPEG")` negated. -/
def isSupported (f : PyStr) : Bool := decide (f = "PNG".data ∨ f = "JPEG".data)

/-- The token list of `resolve_formats` before validation: split, strip and
uppercase `--formats` when non-empty, else PNG and JPEG under `--both`, else
the uppercased legacy `--format`; then the `JPG → JPEG` alias rewrite. -/
def normalizeTokens (args : Args) : List PyStr :=
  if args.formats ≠ [] then
    ((pySplitComma args.formats).filter (fun f => !(pyStrip f).isEmpty)).map
      (fun f => pyUpper (pyStrip f))
  else if args.both then ["PNG".data, "JPEG".data]
  else [pyUpper args.format]

/-- The `JPG → JPEG` alias normalization of `resolve_formats`. -/
def normalizeJpg (fmts : List PyStr) : List PyStr :=
  fmts.map (fun f => if f = "JPG".data then "JPEG".data else f)

/-- The validate-and-dedup loop of `resolve_formats`: unsupported entries
are dropped (with a warning), supported ones are kept on first occurrence
(`seen` is the Python `set`). -/
def dedupSupported (seen : List PyStr) : List PyStr → List PyStr
  | [] => []
  | f :: rest =>
    if isSupported f then
      if f ∈ seen then dedupSupported seen rest
      else f :: dedupSupported (f :: seen) rest
    else dedupSupported seen rest

/-- `resolve_formats(args)` from the source: the deduplicated supported
token list, or `["PNG"]` when nothing remains. -/
def resolve_formats (args : Args) : List PyStr :=
  let out := dedupSupported [] (normalizeJpg (normalizeTokens args))
  if out = [] then ["PNG".data] else out

theorem dedupSupported_sublist (l : List PyStr) :
    ∀ seen, List.Sublist (dedupSupported seen l) (l.filter isSupported) := by
  induction l with
  | nil =>
    intro seen
    simp [dedupSupported]
  | cons f rest ih =>
    intro seen
    by_cases hs : isSupported f
    · rw [List.filter_cons_of_pos hs]
      by_cases hm : f ∈ seen
      · simp only [dedupSupported, hs, if_true, hm, if_pos]
        exact (ih seen).cons f
      · simp only [dedupSupported, hs, if_true, hm, if_neg, not_false_iff]
        exact (ih (f :: seen)).cons₂ f
    · rw [List.filter_cons_of_neg (by simpa using hs)]
      simpa [dedupSupported, hs] using ih seen

theorem dedupSupported_mem (l : List PyStr) :
    ∀ seen f, f ∈ l → isSupported f → f ∈ seen ∨ f ∈ dedupSupported seen l := by
  induction l with
  | nil => simp
  | cons g rest ih =>
    intro seen f hf hsup
    rcases List.mem_cons.mp hf with rfl | hf'
    · by_cases hm : f ∈ seen
      · exact .inl hm
      · right
        simp [dedupSupported, hsup, hm]
    · by_cases hs : isSupported g
      · by_cases hm : g ∈ seen
        · simpa [dedupSupported, hs, hm] using ih seen f hf' hsup
        · rcases ih (g :: seen) f hf' hsup with h | h
          · rcases List.mem_cons.mp h with rfl | h'
            · right
              simp [dedupSupported, hs, hm]
            · exact .inl h'
          · right
            simp only [dedupSupported, hs, if_true, hm, if_neg, not_false_iff]
            exact List.mem_cons_of_mem g h
      · simpa [dedupSupported, hs] using ih seen f hf' hsup

theorem dedupSupported_not_mem_seen (l : List PyStr) :
    ∀ seen f, f ∈ dedupSupported seen l → f ∉ seen := by
  induction l with
  | nil => simp [dedupSupported]
  | cons g rest ih =>
    intro seen f hf
    by_cases hs : isSupported g
    · by_cases hm : g ∈ seen
      · exact ih seen f (by simpa [dedupSupported, hs, hm] using hf)
      · have hf' : f = g ∨ f ∈ dedupSupported (g :: seen) rest := by
          simpa [dedupSupported, hs, hm] using hf
        rcases hf' with rfl | h
        · exact hm
        · intro hc
          exact ih (g :: seen) f h (List.mem_cons_of_mem g hc)
    · exact ih seen f (by simpa [dedupSupported, hs] using hf)

theorem dedupSupported_nodup (l : List PyStr) :
    ∀ seen, (dedupSupported seen l).Nodup := by
  induction l with
  | nil =>
    intro seen
    simp [dedupSupported]
  | cons g rest ih =>
    intro seen
    by_cases hs : isSupported g
    · by_cases hm : g ∈ seen
      · simpa [dedupSupported, hs, hm] using ih seen
      · simp only [dedupSupported, hs, if_true, hm, if_neg, not_false_iff]
        refine List.nodup_cons.mpr ⟨?_, ih (g :: seen)⟩
        intro hc
        exact dedupSupported_not_mem_seen rest (g :: seen) g hc (List.mem_cons_self g seen)
    · simpa [dedupSupported, hs] using ih seen

/-- Keep-first-occurrence deduplication, stated from the claim's words: the
head of the list is kept and every later duplicate of it is dropped, then
the tail is deduplicated the same way.  This is the reference order against
which the order of `resolve_formats` is checked. -/
def firstOccurDedup : List PyStr → List PyStr
  | [] => []
  | f :: rest => f :: (firstOccurDedup rest).filter (fun g => decide (g ≠ f))

theorem firstOccurDedup_filter (p : PyStr → Bool) (l : List PyStr) :
    firstOccurDedup (l.filter p) = (firstOccurDedup l).filter p := by
  induction l with
  | nil => simp [firstOccurDedup]
  | cons f rest ih =>
    by_cases hp : p f
    · simp only [List.filter_cons_of_pos hp, firstOccurDedup, ih, List.filter_filter]
      congr 1
      exact List.filter_congr (fun g _ => Bool.and_comm (decide (g ≠ f)) (p g))
    · have hpf : p f = false := by simpa using hp
      simp only [List.filter_cons_of_neg hp, firstOccurDedup, ih, List.filter_filter]
      refine List.filter_congr (fun g _ => ?_)
      by_cases h : g = f
      · subst h
        simp [hpf]
      · simp [h]

theorem dedupSupported_eq_firstOccur (l : List PyStr) :
    ∀ seen, dedupSupported seen l =
      firstOccurDedup ((l.filter isSupported).filter (fun g => decide (g ∉ seen))) := by
  induction l with
  | nil =>
    intro seen
    simp [dedupSupported, firstOccurDedup]
  | cons f rest ih =>
    intro seen
    by_cases hs : isSupported f
    · by_cases hm : f ∈ seen
      · rw [List.filter_cons_of_pos hs,
          List.filter_cons_of_neg (p := fun g => decide (g ∉ seen)) (by simp [hm])]
        simpa [dedupSupported, hs, hm] using ih seen
      · rw [List.filter_cons_of_pos hs,
          List.filter_cons_of_pos (p := fun g => decide (g ∉ seen)) (by simp [hm])]
        simp only [firstOccurDedup]
        simp only [dedupSupported, hs, if_true, hm, if_neg, not_false_iff]
        congr 1
        rw [ih (f :: seen), ← firstOccurDedup_filter]
        congr 1
        simp only [List.filter_filter]
        refine List.filter_congr (fun g _ => ?_)
        by_cases h1 : g = f
        · subst h1
          simp
        · by_cases h2 : g ∈ seen <;> simp [List.mem_cons, h1, h2]
    · rw [List.filter_cons_of_neg (by simpa using hs)]
      simpa [dedupSupported, hs] using ih seen

-- C10 -----------------------------------------------------------------------

/-- C10: for every argument combination (comma-separated `--formats`, the
`--both` flag, or the legacy `--format`), `resolve_formats` returns a
non-empty, duplicate-free list whose elements are all PNG or JPEG,
preserving the first-occurrence order of the normalized token list (with
JPG aliased to JPEG); when no recognized token remains the result is
exactly `["PNG"]`. -/
theorem resolve_formats_spec (args : Args) :
    resolve_formats args ≠ [] ∧
    (resolve_formats args).Nodup ∧
    (∀ f ∈ resolve_formats args, f = "PNG".data ∨ f = "JPEG".data) ∧
    ((normalizeJpg (normalizeTokens args)).filter isSupported = [] →
      resolve_formats args = ["PNG".data]) ∧
    ((normalizeJpg (normalizeTokens args)).filter isSupported ≠ [] →
      resolve_formats args =
        firstOccurDedup ((normalizeJpg (normalizeTokens args)).filter isSupported) ∧
      List.Sublist (resolve_formats args) ((normalizeJpg (normalizeTokens args)).filter isSupported) ∧
      ∀ f ∈ (normalizeJpg (normalizeTokens args)).filter isSupported,
        f ∈ resolve_formats args) := by
  set l := normalizeJpg (normalizeTokens args) with hl
  have hout_eq : dedupSupported [] l = firstOccurDedup (l.filter isSupported) := by
    have h := dedupSupported_eq_firstOccur l []
    simpa using h
  have hsub := dedupSupported_sublist l []
  have hmem : ∀ f ∈ l.filter isSupported, f ∈ dedupSupported [] l := by
    intro f hf
    have h1 := List.mem_filter.mp hf
    rcases dedupSupported_mem l [] f h1.1 h1.2 with h | h
    · cases h
    · exact h
  by_cases hout : dedupSupported [] l = []
  · have hfe : l.filter isSupported = [] := by
      cases hfil : l.filter isSupported with
      | nil => rfl
      | cons f fs =>
        have := hmem f (hfil ▸ List.mem_cons_self f fs)
        rw [hout] at this
        cases this
    have hresolve : resolve_formats args = ["PNG".data] := by
      simp [resolve_formats, ← hl, hout]
    refine ⟨by simp [hresolve], by simp [hresolve], ?_, fun _ => hresolve, fun h => absurd hfe h⟩
    intro f hf
    rw [hresolve] at hf
    simp only [List.mem_singleton] at hf
    exact .inl hf
  · have hresolve : resolve_formats args = dedupSupported [] l := by
      simp [resolve_formats, ← hl, hout]
    refine ⟨by rw [hresolve]; exact hout, by rw [hresolve]; exact dedupSupported_nodup l [], ?_, ?_, ?_⟩
    · intro f hf
      rw [hresolve] at hf
      have h1 : f ∈ l.filter isSupported := hsub.mem hf
      have h2 := (List.mem_filter.mp h1).2
      simpa [isSupported] using h2
    · intro hfe
      exfalso
      exact hout (List.sublist_nil.mp (hfe ▸ hsub))
    · intro _
      rw [hresolve]
      exact ⟨hout_eq, hsub, hmem⟩

/-- Witness for C10: `--formats "jpg, foo ,png,jpg"` resolves to
`["JPEG", "PNG"]` — non-empty by the theorem, concretely evaluated in the
second conjunct; and on the duplicated token list `"JPEG,PNG,JPEG"` both the
function and the reference first-occurrence dedup give `["JPEG", "PNG"]`
(keep-first, not keep-last, order). -/
theorem resolve_formats_spec_witness :
    resolve_formats ⟨"jpg, foo ,png,jpg".data, false, "PNG".data⟩ ≠ [] ∧
    resolve_formats ⟨"jpg, foo ,png,jpg".data, false, "PNG".data⟩ =
      ["JPEG".data, "PNG".data] ∧
    resolve_formats ⟨"JPEG,PNG,JPEG".data, false, "PNG".data⟩ =
      ["JPEG".data, "PNG".data] ∧
    firstOccurDedup ((normalizeJpg (normalizeTokens
        ⟨"JPEG,PNG,JPEG".data, false, "PNG".data⟩)).filter isSupported) =
      ["JPEG".data, "PNG".data] :=
  ⟨(resolve_formats_spec ⟨"jpg, foo ,png,jpg".data, false, "PNG".data⟩).1,
   by decide, by decide, by decide⟩

-- main / batch model ---------------------------------------------------------

/-- A document handed to the batch loop: its filename stem and what the
external renderer (`render_pdf_pages`, PyMuPDF) produces for it — `none`
models a render failure (the exception reaches `main`'s per-document
handler), `some pages` the rendered page images. -/
structure Doc where
  name : PyStr
  rendered : Option (List PageImage)
  deriving DecidableEq, Repr

/-- The observable events of a run of `main`: a document's pages were
rendered, an output file was written, or a per-document error was reported
(`ERROR processing <pdf>: ...` on stderr). -/
inductive Event where
  | rendered (doc : PyStr) (npages : Nat)
  | wrote (file : PyStr)
  | errorReported (doc : PyStr)
  deriving DecidableEq, Repr

/-- The configuration surface of a run, after argument parsing. -/
structure Config where
  cols : PyStr
  margin : Nat
  spacing : Nat
  fmts : List PyStr
  suffix : PyStr
  maxWidth : Int
  deriving DecidableEq, Repr

/-- Output extension chosen by `process_pdf`:
`".jpg" if fmt.upper() == "JPEG" else ".png"`. -/
def outExt (fmt : PyStr) : PyStr :=
  if pyUpper fmt = "JPEG".data then ".jpg".data else ".png".data

/-- `process_pdf` as observed through its events, with `main`'s
per-document `try/except` folded in: any exception raised inside it —
render failure, unparseable columns value, empty page list — becomes one
reported error for this document, and the batch moves on.  On success one
file per requested format is written as `<stem><suffix><ext>`. -/
def process_pdf_events (cfg : Config) (doc : Doc) : List Event :=
  match doc.rendered with
  | none => [.errorReported doc.name]
  | some pages =>
    Event.rendered doc.name pages.length ::
    (match compute_grid pages.length cfg.cols with
     | .error _ => [.errorReported doc.name]
     | .ok cr =>
       match make_poster pages cr.1 cr.2 cfg.margin cfg.spacing with
       | .error _ => [.errorReported doc.name]
       | .ok poster =>
         let _resized := downscale_if_needed
           { width := poster.width, height := poster.height } cfg.maxWidth
         cfg.fmts.map fun fmt => Event.wrote (doc.name ++ cfg.suffix ++ outExt fmt))

/-- The outcome of a run of `main`: its observable events and the process
exit status. -/
structure RunResult where
  events : List Event
  exitCode : Nat
  deriving DecidableEq, Repr

/-- `main()` from the source, over the already-discovered document list:
`sys.exit(1)` when no PDFs were found; otherwise every document is
processed in order inside a `try/except` and the process finishes normally
(exit status 0) regardless of per-document failures. -/
def mainRun (cfg : Config) (docs : List Doc) : RunResult :=
  match docs with
  | [] => { events := [], exitCode := 1 }
  | _ => { events := (docs.map (process_pdf_events cfg)).flatten, exitCode := 0 }

-- C4 ------------------------------------------------------------------------

/-- C4 fails as stated: with the unparseable columns value `"x"` and one
renderable one-page document, the run does not fail fast before touching
documents — the document IS rendered (a `rendered` event occurs before the
error report) and the run then terminates normally with exit status 0, not
with a configuration error. -/
theorem invalid_cols_counterexample :
    (mainRun ⟨"x".data, 0, 0, ["PNG".data], "_poster".data, 0⟩
        [⟨"a".data, some [⟨1, 1⟩]⟩]).exitCode = 0 ∧
    Event.rendered "a".data 1 ∈
      (mainRun ⟨"x".data, 0, 0, ["PNG".data], "_poster".data, 0⟩
        [⟨"a".data, some [⟨1, 1⟩]⟩]).events := by
  decide

/-- C4 amended: a columns specification that is neither `"1"` nor `"auto"`
nor parseable as an integer is not detected before processing: every
document is still attempted (and rendered whenever the renderer succeeds),
each one fails individually with a reported per-document error at grid
computation, no output file is ever written, and the run exits 0. -/
theorem mainRun_invalid_cols (cfg : Config) (docs : List Doc)
    (h1 : cfg.cols ≠ "1".data) (h2 : pyLower cfg.cols ≠ "auto".data)
    (h3 : pyInt? cfg.cols = none) (hd : docs ≠ []) :
    (mainRun cfg docs).exitCode = 0 ∧
    (∀ f, Event.wrote f ∉ (mainRun cfg docs).events) ∧
    (∀ d ∈ docs, Event.errorReported d.name ∈ (mainRun cfg docs).events) ∧
    (∀ d ∈ docs, ∀ pages, d.rendered = some pages →
      Event.rendered d.name pages.length ∈ (mainRun cfg docs).events) := by
  have hpe : ∀ d : Doc, process_pdf_events cfg d =
      match d.rendered with
      | none => [Event.errorReported d.name]
      | some pages => [Event.rendered d.name pages.length, Event.errorReported d.name] := by
    intro d
    cases hr : d.rendered with
    | none => simp [process_pdf_events, hr]
    | some pages =>
      have hcg : compute_grid pages.length cfg.cols = .error .invalidConfig := by
        simp [compute_grid, h1, h2, h3]
      simp [process_pdf_events, hr, hcg]
  cases docs with
  | nil => exact absurd rfl hd
  | cons d0 ds =>
    refine ⟨rfl, ?_, ?_, ?_⟩
    · intro f hf
      obtain ⟨evs, hevs, hfev⟩ := List.mem_flatten.mp hf
      obtain ⟨d, _, rfl⟩ := List.mem_map.mp hevs
      rw [hpe d] at hfev
      cases hr : d.rendered with
      | none =>
        rw [hr] at hfev
        simp at hfev
      | some pages =>
        rw [hr] at hfev
        simp at hfev
    · intro d hdmem
      apply List.mem_flatten.mpr
      refine ⟨process_pdf_events cfg d, List.mem_map_of_mem _ hdmem, ?_⟩
      rw [hpe d]
      cases d.rendered with
      | none => simp
      | some pages => simp
    · intro d hdmem pages hr
      apply List.mem_flatten.mpr
      refine ⟨process_pdf_events cfg d, List.mem_map_of_mem _ hdmem, ?_⟩
      rw [hpe d, hr]
      simp

/-- Witness for the amended C4: columns value `"3x"`, one corrupt and one
renderable document — both are reported, nothing is written, exit 0. -/
theorem mainRun_invalid_cols_witness :
    (mainRun ⟨"3x".data, 1, 1, ["PNG".data], "_poster".data, 0⟩
        [⟨"b".data, none⟩, ⟨"a".data, some [⟨2, 3⟩]⟩]).exitCode = 0 ∧
    (∀ f, Event.wrote f ∉
      (mainRun ⟨"3x".data, 1, 1, ["PNG".data], "_poster".data, 0⟩
        [⟨"b".data, none⟩, ⟨"a".data, some [⟨2, 3⟩]⟩]).events) ∧
    (∀ d ∈ ([⟨"b".data, none⟩, ⟨"a".data, some [⟨2, 3⟩]⟩] : List Doc),
      Event.errorReported d.name ∈
        (mainRun ⟨"3x".data, 1, 1, ["PNG".data], "_poster".data, 0⟩
          [⟨"b".data, none⟩, ⟨"a".data, some [⟨2, 3⟩]⟩]).events) ∧
    (∀ d ∈ ([⟨"b".data, none⟩, ⟨"a".data, some [⟨2, 3⟩]⟩] : List Doc),
      ∀ pages, d.rendered = some pages →
        Event.rendered d.name pages.length ∈
          (mainRun ⟨"3x".data, 1, 1, ["PNG".data], "_poster".data, 0⟩
            [⟨"b".data, none⟩, ⟨"a".data, some [⟨2, 3⟩]⟩]).events) :=
  mainRun_invalid_cols ⟨"3x".data, 1, 1, ["PNG".data], "_poster".data, 0⟩
    [⟨"b".data, none⟩, ⟨"a".data, some [⟨2, 3⟩]⟩]
    (by decide) (by decide) (by decide) (by decide)

-- C5 ------------------------------------------------------------------------

/-- C5 fails in its exit-status part: in a batch with one corrupt document
(`bad`, render failure) and one valid document (`good`), the run does
produce the output file for `good` and does report the failure with `bad`'s
identity — but the process still exits 0, so there is no non-zero indicator
that at least one document failed. -/
theorem batch_nonzero_exit_counterexample :
    (mainRun ⟨"1".data, 0, 0, ["PNG".data], "_poster".data, 0⟩
        [⟨"bad".data, none⟩, ⟨"good".data, some [⟨1, 1⟩]⟩]).exitCode = 0 ∧
    Event.errorReported "bad".data ∈
      (mainRun ⟨"1".data, 0, 0, ["PNG".data], "_poster".data, 0⟩
        [⟨"bad".data, none⟩, ⟨"good".data, some [⟨1, 1⟩]⟩]).events ∧
    Event.wrote "good_poster.png".data ∈
      (mainRun ⟨"1".data, 0, 0, ["PNG".data], "_poster".data, 0⟩
        [⟨"bad".data, none⟩, ⟨"good".data, some [⟨1, 1⟩]⟩]).events := by
  decide

/-- C5 amended: per-document failures are isolated — with a valid columns
specification, every document whose render fails is reported with its
identity, every document that renders to a non-empty page list gets an
output file written for each requested format, and the batch runs to
completion; the exit status, however, is 0, not a non-zero failure
indicator. -/
theorem mainRun_batch_isolation (cfg : Config) (docs : List Doc)
    (hcols : cfg.cols = "1".data ∨ pyLower cfg.cols = "auto".data ∨ pyInt? cfg.cols ≠ none)
    (hd : docs ≠ []) :
    (mainRun cfg docs).exitCode = 0 ∧
    (∀ d ∈ docs, d.rendered = none →
      Event.errorReported d.name ∈ (mainRun cfg docs).events) ∧
    (∀ d ∈ docs, ∀ pages, d.rendered = some pages → pages ≠ [] →
      ∀ fmt ∈ cfg.fmts,
        Event.wrote (d.name ++ cfg.suffix ++ outExt fmt) ∈ (mainRun cfg docs).events) := by
  have hcg : ∀ n : Nat, ∃ cr, compute_grid n cfg.cols = .ok cr := by
    intro n
    by_cases h1 : cfg.cols = "1".data
    · exact ⟨(1, n), by simp [compute_grid, h1]⟩
    · by_cases h2 : pyLower cfg.cols = "auto".data
      · exact ⟨(ceilSqrt n, cdiv n (ceilSqrt n)), by simp [compute_grid, h1, h2]⟩
      · rcases hcols with h | h | h
        · exact absurd h h1
        · exact absurd h h2
        · cases hk : pyInt? cfg.cols with
          | none => exact absurd hk h
          | some k =>
            exact ⟨((max 1 k).toNat, cdiv n (max 1 k).toNat),
              by simp [compute_grid, h1, h2, hk]⟩
  cases docs with
  | nil => exact absurd rfl hd
  | cons d0 ds =>
    refine ⟨rfl, ?_, ?_⟩
    · intro d hdmem hr
      apply List.mem_flatten.mpr
      refine ⟨process_pdf_events cfg d, List.mem_map_of_mem _ hdmem, ?_⟩
      simp [process_pdf_events, hr]
    · intro d hdmem pages hr hpne fmt hfmt
      apply List.mem_flatten.mpr
      refine ⟨process_pdf_events cfg d, List.mem_map_of_mem _ hdmem, ?_⟩
      obtain ⟨cr, hcr⟩ := hcg pages.length
      have hmp := make_poster_eq pages cr.1 cr.2 cfg.margin cfg.spacing hpne
      simp only [process_pdf_events, hr, hcr, hmp]
      refine List.mem_cons_of_mem _ ?_
      exact List.mem_map_of_mem _ hfmt

/-- Witness for the amended C5: the corrupt/valid batch of the
counterexample satisfies the amended statement. -/
theorem mainRun_batch_isolation_witness :
    (mainRun ⟨"1".data, 0, 0, ["PNG".data], "_poster".data, 0⟩
        [⟨"bad".data, none⟩, ⟨"good".data, some [⟨1, 1⟩]⟩]).exitCode = 0 ∧
    (∀ d ∈ ([⟨"bad".data, none⟩, ⟨"good".data, some [⟨1, 1⟩]⟩] : List Doc),
      d.rendered = none →
        Event.errorReported d.name ∈
          (mainRun ⟨"1".data, 0, 0, ["PNG".data], "_poster".data, 0⟩
            [⟨"bad".data, none⟩, ⟨"good".data, some [⟨1, 1⟩]⟩]).events) ∧
    (∀ d ∈ ([⟨"bad".data, none⟩, ⟨"good".data, some [⟨1, 1⟩]⟩] : List Doc),
      ∀ pages, d.rendered = some pages → pages ≠ [] →
        ∀ fmt ∈ (⟨"1".data, 0, 0, ["PNG".data], "_poster".data, 0⟩ : Config).fmts,
          Event.wrote (d.name ++ (⟨"1".data, 0, 0, ["PNG".data], "_poster".data, 0⟩ : Config).suffix ++ outExt fmt) ∈
            (mainRun ⟨"1".data, 0, 0, ["PNG".data], "_poster".data, 0⟩
              [⟨"bad".data, none⟩, ⟨"good".data, some [⟨1, 1⟩]⟩]).events) :=
  mainRun_batch_isolation ⟨"1".data, 0, 0, ["PNG".data], "_poster".data, 0⟩
    [⟨"bad".data, none⟩, ⟨"good".data, some [⟨1, 1⟩]⟩]
    (Or.inl (by decide)) (by decide)
